import Mathlib

/-!
Shallow embedding of the `simple-force-field` repository core
(`force_field/core/*.py`, `force_field/potentials/*.py`,
`force_field/constants.py`) and proofs of the specification claims.

Python float values are modelled as real numbers; Python dicts keyed by
strings are modelled as association lists `List (String × ℝ)`; Python
exceptions are modelled with `Except` / `Option`.
-/

/-- Association-list lookup, modelling `d[k]` / `k in d` on a Python dict
(first binding wins; the dicts built by the code never repeat a key). -/
def lookup : List (String × ℝ) → String → Option ℝ
  | [], _ => none
  | (k', v) :: rest, k => if k' = k then some v else lookup rest k

/-- `force_field/core/atom_type.py`: an AtomType has `name`, `symbol`,
`mass`, an open-ended bag of numeric properties (the `**kwargs`, e.g.
`charge`, `sigma`, `epsilon`), and a back-reference list of the
interaction types it participates in (here stored as their names). -/
structure AtomType where
  name : String
  symbol : String
  mass : ℝ
  properties : List (String × ℝ)
  interaction_types : List String

/-- `force_field/core/potential.py`: a Potential exposes its `name`, the
required `constant_names` and `parameter_names`, pure evaluators `F` and
`U` (taking `x` plus the resolved parameter and constant dicts; `none`
models the TypeError Python raises when a required keyword is absent),
and `calculate_parameters` (`none` models the base class raising
NotImplementedError; `some f` with `f` returning `.error` models a
combination rule that raises). -/
structure Potential where
  name : String
  constant_names : List String
  parameter_names : List String
  F : ℝ → List (String × ℝ) → List (String × ℝ) → Option ℝ
  U : ℝ → List (String × ℝ) → List (String × ℝ) → Option ℝ
  calculate_parameters : Option (List AtomType → Except String (List (String × ℝ)))

/-- `force_field/potentials/harmonic.py`: `F = -k (x - eq)`,
`U = 0.5 k (x - eq)^2`; no constants; no combination rule. -/
def Harmonic : Potential where
  name := "harmonic"
  constant_names := []
  parameter_names := ["k", "eq"]
  F := fun x ps _ => do
    let k ← lookup ps "k"
    let eq ← lookup ps "eq"
    pure (-k * (x - eq))
  U := fun x ps _ => do
    let k ← lookup ps "k"
    let eq ← lookup ps "eq"
    pure (0.5 * k * (x - eq) ^ 2)
  calculate_parameters := none

/-- `force_field/potentials/coulombic.py`, `calculate_parameters`:
`charge_product = atom_types[0].charge * atom_types[1].charge`.
Fewer than two atom types is an IndexError, a missing `charge` property
an AttributeError; both are modelled as `.error`. -/
def coulombicCalculate (atoms : List AtomType) : Except String (List (String × ℝ)) :=
  match atoms with
  | a0 :: a1 :: _ =>
    match lookup a0.properties "charge", lookup a1.properties "charge" with
    | some c0, some c1 => .ok [("charge_product", c0 * c1)]
    | _, _ => .error "AttributeError: charge"
  | _ => .error "IndexError: tuple index out of range"

/-- `force_field/potentials/coulombic.py`:
`F = ecf * charge_product / (epsilon_r * x^2)`,
`U = ecf * charge_product / (epsilon_r * x)`. -/
noncomputable def Coulombic : Potential where
  name := "coulombic"
  constant_names := ["ecf", "epsilon_r"]
  parameter_names := ["charge_product"]
  F := fun x ps cs => do
    let q ← lookup ps "charge_product"
    let ecf ← lookup cs "ecf"
    let er ← lookup cs "epsilon_r"
    pure (ecf * q / (er * x ^ 2))
  U := fun x ps cs => do
    let q ← lookup ps "charge_product"
    let ecf ← lookup cs "ecf"
    let er ← lookup cs "epsilon_r"
    pure (ecf * q / (er * x))
  calculate_parameters := some coulombicCalculate

/-- `force_field/potentials/lennard_jones.py`, `calculate_parameters`
(Lorentz–Berthelot): `epsilon = (epsilon0 * epsilon1) ** 0.5`,
`sigma = (sigma0 + sigma1) / 2`. -/
noncomputable def lennardJonesCalculate (atoms : List AtomType) :
    Except String (List (String × ℝ)) :=
  match atoms with
  | a0 :: a1 :: _ =>
    match lookup a0.properties "epsilon", lookup a1.properties "epsilon",
          lookup a0.properties "sigma", lookup a1.properties "sigma" with
    | some e0, some e1, some s0, some s1 =>
      .ok [("epsilon", Real.sqrt (e0 * e1)), ("sigma", (s0 + s1) / 2)]
    | _, _, _, _ => .error "AttributeError: epsilon or sigma"
  | _ => .error "IndexError: tuple index out of range"

/-- `force_field/potentials/lennard_jones.py`:
`F = 48 epsilon (sigma^12 / x^13 - 0.5 sigma^6 / x^7)`,
`U = 4 epsilon ((sigma/x)^12 - (sigma/x)^6)`. -/
noncomputable def LennardJones : Potential where
  name := "lennard_jones"
  constant_names := []
  parameter_names := ["epsilon", "sigma"]
  F := fun x ps _ => do
    let epsilon ← lookup ps "epsilon"
    let sigma ← lookup ps "sigma"
    pure (48 * epsilon * ((sigma ^ 12 / x ^ 13) - 0.5 * (sigma ^ 6 / x ^ 7)))
  U := fun x ps _ => do
    let epsilon ← lookup ps "epsilon"
    let sigma ← lookup ps "sigma"
    pure (4 * epsilon * ((sigma / x) ^ 12 - (sigma / x) ^ 6))
  calculate_parameters := some lennardJonesCalculate

/-- `force_field/constants.py`: the global physical-constants table,
looked up by string name (`getattr(Constants, const_name)`); it defines
exactly `ecf = 138.935458` and `epsilon_r = 1.0`. -/
def Constants.get (n : String) : Option ℝ :=
  if n = "ecf" then some 138.935458
  else if n = "epsilon_r" then some 1.0
  else none

/-- Errors raised by `InteractionType.__init__` and the `ForceField`
`define_*` methods (`ValueError` / `AssertionError` in the source). -/
inductive FFError where
  | unsupportedDerivation (potentialName : String)
  | derivationError (potentialName : String) (msg : String)
  | missingConstant (constName : String)
  | nameEqualsSymbol (name : String)
  | duplicateAtomIdentifier (identifier : String)
  | duplicateInteractionName (name : String)
  | unknownAtomType (identifier : String)
deriving DecidableEq

/-- One iteration of the parameter loop in `InteractionType.__init__`:
an explicitly supplied value wins; otherwise
`potential.calculate_parameters(atom_types)[param_name]`, where a
NotImplementedError becomes the "requires parameters be specified
explicitly" error and any other failure (a raising rule, or the key
missing from the derived dict) becomes the "error calculating
parameters" error; both name the potential. -/
def resolveParameter (pot : Potential) (atoms : List AtomType)
    (explicit : List (String × ℝ)) (n : String) : Except FFError ℝ :=
  match lookup explicit n with
  | some v => .ok v
  | none =>
    match pot.calculate_parameters with
    | none => .error (.unsupportedDerivation pot.name)
    | some f =>
      match f atoms with
      | .error msg => .error (.derivationError pot.name msg)
      | .ok derived =>
        match lookup derived n with
        | some v => .ok v
        | none => .error (.derivationError pot.name ("KeyError: " ++ n))

/-- The common shape of the two resolution loops of
`InteractionType.__init__`: resolve every required name with `f`,
stopping at the first failure, and collect the resolved dict. -/
def resolveAll (f : String → Except FFError ℝ) : List String → Except FFError (List (String × ℝ))
  | [] => .ok []
  | n :: rest =>
    match f n with
    | .error e => .error e
    | .ok v =>
      match resolveAll f rest with
      | .error e => .error e
      | .ok tail => .ok ((n, v) :: tail)

/-- The parameter loop of `InteractionType.__init__`: resolve every name
in `potential.parameter_names`, stopping at the first failure. -/
def resolveParameters (pot : Potential) (atoms : List AtomType)
    (explicit : List (String × ℝ)) (names : List String) :
    Except FFError (List (String × ℝ)) :=
  resolveAll (resolveParameter pot atoms explicit) names

/-- One iteration of the constant loop in `InteractionType.__init__`:
an explicitly supplied value wins; otherwise
`getattr(Constants, const_name)`, whose AttributeError becomes the
"constant is not defined" error. -/
def resolveConstant (explicit : List (String × ℝ)) (n : String) : Except FFError ℝ :=
  match lookup explicit n with
  | some v => .ok v
  | none =>
    match Constants.get n with
    | some v => .ok v
    | none => .error (.missingConstant n)

/-- The constant loop of `InteractionType.__init__`. -/
def resolveConstants (explicit : List (String × ℝ)) (names : List String) :
    Except FFError (List (String × ℝ)) :=
  resolveAll (resolveConstant explicit) names

/-- `force_field/core/interaction_type.py`: an InteractionType after a
successful construction. -/
structure InteractionType where
  name : String
  category_name : String
  bonded : Bool
  potential : Potential
  decomposition : String
  atom_types : List AtomType
  parameters : List (String × ℝ)
  constants : List (String × ℝ)
  cutoff : Option ℝ

/-- `InteractionType.__init__`: resolve the parameters, then the
constants, and only then produce the InteractionType (construction
either fully succeeds or the object is never created). `none` for the
`parameters` / `constants` arguments models the Python default. -/
def mkInteractionType (name category_name : String) (bonded : Bool)
    (pot : Potential) (decomposition : String) (atoms : List AtomType)
    (parameters constants : Option (List (String × ℝ))) (cutoff : Option ℝ) :
    Except FFError InteractionType :=
  match resolveParameters pot atoms (parameters.getD []) pot.parameter_names with
  | .error e => .error e
  | .ok ps =>
    match resolveConstants (constants.getD []) pot.constant_names with
    | .error e => .error e
    | .ok cs =>
      .ok {
        name := name
        category_name := category_name
        bonded := bonded
        potential := pot
        decomposition := decomposition
        atom_types := atoms
        parameters := ps
        constants := cs
        cutoff := cutoff
      }

/-- `InteractionType.F_base`: `potential.F(x, **parameters, **constants)`. -/
def InteractionType.F_base (it : InteractionType) (x : ℝ) : Option ℝ :=
  it.potential.F x it.parameters it.constants

/-- `InteractionType.U_base`: `potential.U(x, **parameters, **constants)`. -/
def InteractionType.U_base (it : InteractionType) (x : ℝ) : Option ℝ :=
  it.potential.U x it.parameters it.constants

/-- `InteractionType.F`: `0.0` when a cutoff is set and `x > cutoff`,
otherwise `F_base(x)`. -/
noncomputable def InteractionType.F (it : InteractionType) (x : ℝ) : Option ℝ :=
  match it.cutoff with
  | some c => if x > c then some 0 else it.F_base x
  | none => it.F_base x

/-- `InteractionType.U`: with a cutoff set, `0.0` when `x > cutoff` and
the shifted `U_base(x) - U_base(cutoff)` otherwise; without a cutoff,
`U_base(x)` unshifted. -/
noncomputable def InteractionType.U (it : InteractionType) (x : ℝ) : Option ℝ :=
  match it.cutoff with
  | some c =>
    if x > c then some 0
    else do
      let ux ← it.U_base x
      let uc ← it.U_base c
      pure (ux - uc)
  | none => it.U_base x

/-- `force_field/core/force_field.py`: the top-level registry. Cross
references from InteractionTypes and back-reference bookkeeping use the
position of an AtomType in `atom_types` as its identity (the Python
objects are aliased by reference). -/
structure ForceField where
  name : Option String
  atom_types : List AtomType
  atom_type_identifiers : List String
  interaction_types : List InteractionType
  interaction_type_identifiers : List String

/-- `ForceField.__init__`: empty registries. -/
def ForceField.init (name : Option String) : ForceField :=
  { name := name
    atom_types := []
    atom_type_identifiers := []
    interaction_types := []
    interaction_type_identifiers := [] }

/-- `ForceField.define_atom_type`, with the source's order preserved: the
three asserts run first, and the registry is mutated only after every
failure point, so a failing call returns the ForceField unchanged. -/
def define_atom_type (ff : ForceField) (name symbol : String) (mass : ℝ)
    (props : List (String × ℝ)) : ForceField × Option FFError :=
  if name = symbol then (ff, some (.nameEqualsSymbol name))
  else if name ∈ ff.atom_type_identifiers then (ff, some (.duplicateAtomIdentifier name))
  else if symbol ∈ ff.atom_type_identifiers then (ff, some (.duplicateAtomIdentifier symbol))
  else
    ({ ff with
        atom_types := ff.atom_types ++
          [{ name := name, symbol := symbol, mass := mass, properties := props,
             interaction_types := [] }]
        atom_type_identifiers := ff.atom_type_identifiers ++ [name, symbol] },
     none)

/-- `ForceField.get_atom_type`: look an AtomType up by name or symbol,
returning its position; unknown identifiers raise. (When the identifier
is registered, a matching atom always exists in any ForceField built
through the public API; the out-of-range fallback is unreachable.) -/
def get_atom_type (ff : ForceField) (identifier : String) : Except FFError Nat :=
  if identifier ∈ ff.atom_type_identifiers then
    match ff.atom_types.findIdx? (fun a => a.name = identifier || a.symbol = identifier) with
    | some i => .ok i
    | none => .ok ff.atom_types.length
  else .error (.unknownAtomType identifier)

/-- An element of the `atom_types` argument of `define_interaction_type`:
either an AtomType object itself (given by its position in the owning
ForceField's list, since Python aliases objects by reference) or a
name/symbol identifier to be looked up. -/
inductive AtomSpec where
  | direct (idx : Nat)
  | ident (identifier : String)

/-- The atom-type resolution loop of `define_interaction_type`: objects
pass through, identifiers go through `get_atom_type`, failures abort. -/
def resolveAtomSpec (ff : ForceField) : AtomSpec → Except FFError Nat
  | .direct i => .ok i
  | .ident s => get_atom_type ff s

/-- Resolve every element of the `atom_types` argument, stopping at the
first failure. -/
def resolveAtomSpecs (ff : ForceField) : List AtomSpec → Except FFError (List Nat)
  | [] => .ok []
  | s :: rest =>
    match resolveAtomSpec ff s with
    | .error e => .error e
    | .ok i =>
      match resolveAtomSpecs ff rest with
      | .error e => .error e
      | .ok tail => .ok (i :: tail)

/-- The back-reference loop of `define_interaction_type`:
`for atom_type in set(atom_types): atom_type.interaction_types.append(...)`.
Each atom whose position occurs in `idxs` (however many times) receives
exactly one appended back-reference; every other atom is untouched. -/
def addBackRefs (itName : String) (idxs : List Nat) : List AtomType → Nat → List AtomType
  | [], _ => []
  | a :: rest, i =>
    (if i ∈ idxs then { a with interaction_types := a.interaction_types ++ [itName] }
     else a) :: addBackRefs itName idxs rest (i + 1)

/-- A placeholder used for an out-of-range direct reference (a foreign
AtomType object not owned by this ForceField); unreachable through the
public API. -/
def defaultAtom : AtomType :=
  { name := "", symbol := "", mass := 0, properties := [], interaction_types := [] }

/-- `ForceField.define_interaction_type`, with the source's order
preserved: the duplicate-name assert, atom-type resolution and
InteractionType construction all run before any mutation; on success the
interaction is registered, its name recorded, and a back-reference
appended to each distinct participating AtomType. -/
def define_interaction_type (ff : ForceField) (name category_name : String)
    (bonded : Bool) (pot : Potential) (decomposition : String)
    (atom_specs : List AtomSpec) (parameters constants : Option (List (String × ℝ)))
    (cutoff : Option ℝ) : ForceField × Option FFError :=
  if name ∈ ff.interaction_type_identifiers then
    (ff, some (.duplicateInteractionName name))
  else
    match resolveAtomSpecs ff atom_specs with
    | .error e => (ff, some e)
    | .ok idxs =>
      let atoms := idxs.map (fun i => ff.atom_types.getD i defaultAtom)
      match mkInteractionType name category_name bonded pot decomposition atoms
          parameters constants cutoff with
      | .error e => (ff, some e)
      | .ok it =>
        ({ ff with
            atom_types := addBackRefs name idxs ff.atom_types 0
            interaction_types := ff.interaction_types ++ [it]
            interaction_type_identifiers := ff.interaction_type_identifiers ++ [name] },
         none)

/-- One call to a public `define_*` method of a ForceField. -/
inductive Call where
  | defAtom (name symbol : String) (mass : ℝ) (props : List (String × ℝ))
  | defInter (name category_name : String) (bonded : Bool) (pot : Potential)
      (decomposition : String) (atom_specs : List AtomSpec)
      (parameters constants : Option (List (String × ℝ))) (cutoff : Option ℝ)

/-- Dispatch one `define_*` call. -/
def applyCall (ff : ForceField) : Call → ForceField × Option FFError
  | .defAtom n s m p => define_atom_type ff n s m p
  | .defInter n c b pot d sp ps cs co =>
    define_interaction_type ff n c b pot d sp ps cs co

/-- Run a sequence of `define_*` calls, all of which must succeed. -/
def runCalls (ff : ForceField) : List Call → Except FFError ForceField
  | [] => .ok ff
  | c :: rest =>
    match applyCall ff c with
    | (_, some e) => .error e
    | (ff', none) => runCalls ff' rest

theorem lookup_eq_none_of_not_mem {l : List (String × ℝ)} {k : String}
    (h : k ∉ l.map Prod.fst) : lookup l k = none := by
  induction l with
  | nil => rfl
  | cons p rest ih =>
    simp only [List.map_cons, List.mem_cons, not_or] at h
    rw [show (p :: rest : List (String × ℝ)) = (p.1, p.2) :: rest from rfl, lookup,
      if_neg (fun hEq : p.1 = k => h.1 hEq.symm)]
    exact ih h.2

theorem resolveAll_ok_keys {f : String → Except FFError ℝ} {names : List String}
    {res : List (String × ℝ)} (h : resolveAll f names = .ok res) :
    res.map Prod.fst = names := by
  induction names generalizing res with
  | nil =>
    simp only [resolveAll] at h
    cases h
    rfl
  | cons n rest ih =>
    simp only [resolveAll] at h
    cases hf : f n with
    | error e => rw [hf] at h; simp at h
    | ok v =>
      rw [hf] at h
      cases ht : resolveAll f rest with
      | error e => rw [ht] at h; simp at h
      | ok tail =>
        rw [ht] at h
        simp only [Except.ok.injEq] at h
        subst h
        simp [ih ht]

theorem resolveAll_ok_lookup {f : String → Except FFError ℝ} {names : List String}
    {res : List (String × ℝ)} (h : resolveAll f names = .ok res) :
    ∀ n ∈ names, ∃ v, f n = .ok v ∧ lookup res n = some v := by
  induction names generalizing res with
  | nil => intro n hn; cases hn
  | cons n0 rest ih =>
    simp only [resolveAll] at h
    cases hf : f n0 with
    | error e => rw [hf] at h; simp at h
    | ok v0 =>
      rw [hf] at h
      cases ht : resolveAll f rest with
      | error e => rw [ht] at h; simp at h
      | ok tail =>
        rw [ht] at h
        simp only [Except.ok.injEq] at h
        subst h
        intro n hn
        rcases List.mem_cons.mp hn with rfl | hn'
        · exact ⟨v0, hf, by simp [lookup]⟩
        · obtain ⟨v, hv, hl⟩ := ih ht n hn'
          by_cases hEq : n0 = n
          · subst hEq
            rw [hf] at hv
            cases hv
            exact ⟨v0, hf, by simp [lookup]⟩
          · exact ⟨v, hv, by simpa [lookup, hEq] using hl⟩

theorem resolveAll_error_mem {f : String → Except FFError ℝ} {names : List String}
    {e : FFError} (h : resolveAll f names = .error e) :
    ∃ n ∈ names, f n = .error e := by
  induction names with
  | nil => simp [resolveAll] at h
  | cons n0 rest ih =>
    simp only [resolveAll] at h
    cases hf : f n0 with
    | error e0 =>
      rw [hf] at h
      simp only [Except.error.injEq] at h
      subst h
      exact ⟨n0, List.mem_cons_self n0 rest, hf⟩
    | ok v0 =>
      rw [hf] at h
      cases ht : resolveAll f rest with
      | error e1 =>
        rw [ht] at h
        simp only [Except.error.injEq] at h
        subst h
        obtain ⟨n, hn, hfe⟩ := ih ht
        exact ⟨n, List.mem_cons_of_mem n0 hn, hfe⟩
      | ok tail => rw [ht] at h; simp at h

theorem resolveAll_error_of_mem {f : String → Except FFError ℝ} {names : List String}
    {n : String} {e : FFError} (hn : n ∈ names) (hf : f n = .error e) :
    ∃ e', resolveAll f names = .error e' := by
  cases hres : resolveAll f names with
  | error e' => exact ⟨e', rfl⟩
  | ok res =>
    obtain ⟨v, hv, _⟩ := resolveAll_ok_lookup hres n hn
    rw [hf] at hv
    cases hv

theorem mkInteractionType_ok_elim {name cat : String} {b : Bool} {pot : Potential}
    {d : String} {atoms : List AtomType} {ps cs : Option (List (String × ℝ))}
    {co : Option ℝ} {it : InteractionType}
    (h : mkInteractionType name cat b pot d atoms ps cs co = .ok it) :
    resolveParameters pot atoms (ps.getD []) pot.parameter_names = .ok it.parameters ∧
    resolveConstants (cs.getD []) pot.constant_names = .ok it.constants := by
  simp only [mkInteractionType] at h
  cases hp : resolveParameters pot atoms (ps.getD []) pot.parameter_names with
  | error e => rw [hp] at h; simp at h
  | ok l1 =>
    rw [hp] at h
    cases hc : resolveConstants (cs.getD []) pot.constant_names with
    | error e => rw [hc] at h; simp at h
    | ok l2 =>
      rw [hc] at h
      simp only [Except.ok.injEq] at h
      subst h
      exact ⟨rfl, rfl⟩

theorem mkInteractionType_error_params {name cat : String} {b : Bool} {pot : Potential}
    {d : String} {atoms : List AtomType} {ps cs : Option (List (String × ℝ))}
    {co : Option ℝ} {e : FFError}
    (hp : resolveParameters pot atoms (ps.getD []) pot.parameter_names = .error e) :
    mkInteractionType name cat b pot d atoms ps cs co = .error e := by
  simp only [mkInteractionType, hp]

theorem mkInteractionType_error_consts {name cat : String} {b : Bool} {pot : Potential}
    {d : String} {atoms : List AtomType} {ps cs : Option (List (String × ℝ))}
    {co : Option ℝ} {l : List (String × ℝ)} {e : FFError}
    (hp : resolveParameters pot atoms (ps.getD []) pot.parameter_names = .ok l)
    (hc : resolveConstants (cs.getD []) pot.constant_names = .error e) :
    mkInteractionType name cat b pot d atoms ps cs co = .error e := by
  simp only [mkInteractionType, hp, hc]

/-- Claim C1: for an InteractionType with a cutoff `c`, `F(x)` equals
`F_base(x)` for `x ≤ c` and `0` for `x > c`, and `U(x)` equals the shifted
`U_base(x) - U_base(c)` for `x ≤ c` (hence `U(c) = 0` exactly) and `0`
for `x > c`; for an InteractionType with no cutoff, `F` and `U` are the
unshifted `F_base` and `U_base` at every `x`. -/
theorem spec_C1 (it : InteractionType) (x : ℝ) :
    (∀ c : ℝ, it.cutoff = some c →
      (x ≤ c → it.F x = it.F_base x) ∧
      (c < x → it.F x = some 0) ∧
      (x ≤ c → ∀ ux uc : ℝ, it.U_base x = some ux → it.U_base c = some uc →
        it.U x = some (ux - uc)) ∧
      (c < x → it.U x = some 0) ∧
      (∀ uc : ℝ, it.U_base c = some uc → it.U c = some 0)) ∧
    (it.cutoff = none → it.F x = it.F_base x ∧ it.U x = it.U_base x) := by
  constructor
  · intro c hc
    refine ⟨?_, ?_, ?_, ?_, ?_⟩
    · intro hx
      simp [InteractionType.F, hc, not_lt.mpr hx]
    · intro hx
      simp [InteractionType.F, hc, hx]
    · intro hx ux uc hux huc
      simp [InteractionType.U, hc, not_lt.mpr hx, hux, huc]
    · intro hx
      simp [InteractionType.U, hc, hx]
    · intro uc huc
      simp [InteractionType.U, hc, lt_irrefl c, huc]
  · intro hc
    exact ⟨by simp [InteractionType.F, hc], by simp [InteractionType.U, hc]⟩

/-- A concrete harmonic bond interaction with cutoff 3, used to witness
the cutoff behaviour. -/
def itHarm : InteractionType where
  name := "b"
  category_name := "bond"
  bonded := true
  potential := Harmonic
  decomposition := "bond"
  atom_types := []
  parameters := [("k", 2), ("eq", 1)]
  constants := []
  cutoff := some 3

theorem spec_C1_witness :
    itHarm.F 5 = some 0 ∧
    itHarm.U 2 = some (0.5 * 2 * ((2 : ℝ) - 1) ^ 2 - 0.5 * 2 * ((3 : ℝ) - 1) ^ 2) ∧
    itHarm.U 3 = some 0 := by
  have hub2 : itHarm.U_base 2 = some (0.5 * 2 * ((2 : ℝ) - 1) ^ 2) := by
    simp [itHarm, InteractionType.U_base, Harmonic, lookup]
  have hub3 : itHarm.U_base 3 = some (0.5 * 2 * ((3 : ℝ) - 1) ^ 2) := by
    simp [itHarm, InteractionType.U_base, Harmonic, lookup]
  refine ⟨((spec_C1 itHarm 5).1 3 rfl).2.1 (by norm_num), ?_, ?_⟩
  · exact ((spec_C1 itHarm 2).1 3 rfl).2.2.1 (by norm_num) _ _ hub2 hub3
  · exact ((spec_C1 itHarm 3).1 3 rfl).2.2.2.2 _ hub3

/-- Claim C4: the closed-form force and energy laws of the three built-in
potentials: Harmonic `F = -k(x-eq)`, `U = 0.5 k (x-eq)^2`; Coulombic
`F = ecf q / (epsilon_r x^2)`, `U = ecf q / (epsilon_r x)`; LennardJones
`F = 48 eps (sigma^12/x^13 - 0.5 sigma^6/x^7)`,
`U = 4 eps ((sigma/x)^12 - (sigma/x)^6)`. -/
theorem spec_C4 :
    (∀ k eq x : ℝ,
      Harmonic.F x [("k", k), ("eq", eq)] [] = some (-k * (x - eq)) ∧
      Harmonic.U x [("k", k), ("eq", eq)] [] = some (0.5 * k * (x - eq) ^ 2)) ∧
    (∀ q ecf er x : ℝ, x ≠ 0 →
      Coulombic.F x [("charge_product", q)] [("ecf", ecf), ("epsilon_r", er)] =
        some (ecf * q / (er * x ^ 2)) ∧
      Coulombic.U x [("charge_product", q)] [("ecf", ecf), ("epsilon_r", er)] =
        some (ecf * q / (er * x))) ∧
    (∀ epsilon sigma x : ℝ, x ≠ 0 →
      LennardJones.F x [("epsilon", epsilon), ("sigma", sigma)] [] =
        some (48 * epsilon * ((sigma ^ 12 / x ^ 13) - 0.5 * (sigma ^ 6 / x ^ 7))) ∧
      LennardJones.U x [("epsilon", epsilon), ("sigma", sigma)] [] =
        some (4 * epsilon * ((sigma / x) ^ 12 - (sigma / x) ^ 6))) := by
  refine ⟨fun k eq x => ⟨?_, ?_⟩, fun q ecf er x _ => ⟨?_, ?_⟩,
    fun epsilon sigma x _ => ⟨?_, ?_⟩⟩ <;>
    simp [Harmonic, Coulombic, LennardJones, lookup]

theorem spec_C4_witness :
    Coulombic.U 2 [("charge_product", 3)] [("ecf", 138.935458), ("epsilon_r", 1)] =
      some (138.935458 * 3 / (1 * 2)) :=
  (spec_C4.2.1 3 138.935458 1 2 two_ne_zero).2

/-- Claim C5: the combination rules — Coulombic derives
`charge_product = charge(a0) * charge(a1)`; LennardJones derives
`epsilon = sqrt(epsilon0 * epsilon1)` and `sigma = (sigma0 + sigma1)/2`;
in particular atoms with (sigma 0.3, epsilon 0.6) and (sigma 0.4,
epsilon 0.8) derive sigma 0.35 and epsilon sqrt 0.48. -/
theorem spec_C5 :
    Coulombic.calculate_parameters = some coulombicCalculate ∧
    LennardJones.calculate_parameters = some lennardJonesCalculate ∧
    (∀ (a0 a1 : AtomType) (rest : List AtomType) (c0 c1 : ℝ),
      lookup a0.properties "charge" = some c0 →
      lookup a1.properties "charge" = some c1 →
      coulombicCalculate (a0 :: a1 :: rest) = .ok [("charge_product", c0 * c1)]) ∧
    (∀ (a0 a1 : AtomType) (rest : List AtomType) (e0 e1 s0 s1 : ℝ),
      lookup a0.properties "epsilon" = some e0 →
      lookup a1.properties "epsilon" = some e1 →
      lookup a0.properties "sigma" = some s0 →
      lookup a1.properties "sigma" = some s1 →
      lennardJonesCalculate (a0 :: a1 :: rest) =
        .ok [("epsilon", Real.sqrt (e0 * e1)), ("sigma", (s0 + s1) / 2)]) ∧
    lennardJonesCalculate
        [{ name := "A", symbol := "a", mass := 1,
           properties := [("sigma", 0.3), ("epsilon", 0.6)], interaction_types := [] },
         { name := "B", symbol := "b2", mass := 1,
           properties := [("sigma", 0.4), ("epsilon", 0.8)], interaction_types := [] }] =
      .ok [("epsilon", Real.sqrt 0.48), ("sigma", 0.35)] := by
  have hLJ : ∀ (a0 a1 : AtomType) (rest : List AtomType) (e0 e1 s0 s1 : ℝ),
      lookup a0.properties "epsilon" = some e0 →
      lookup a1.properties "epsilon" = some e1 →
      lookup a0.properties "sigma" = some s0 →
      lookup a1.properties "sigma" = some s1 →
      lennardJonesCalculate (a0 :: a1 :: rest) =
        .ok [("epsilon", Real.sqrt (e0 * e1)), ("sigma", (s0 + s1) / 2)] := by
    intro a0 a1 rest e0 e1 s0 s1 he0 he1 hs0 hs1
    simp [lennardJonesCalculate, he0, he1, hs0, hs1]
  refine ⟨rfl, rfl, ?_, hLJ, ?_⟩
  · intro a0 a1 rest c0 c1 h0 h1
    simp [coulombicCalculate, h0, h1]
  · rw [hLJ _ _ [] 0.6 0.8 0.3 0.4 (by simp [lookup]) (by simp [lookup])
      (by simp [lookup]) (by simp [lookup])]
    rw [show (0.6 : ℝ) * 0.8 = 0.48 by norm_num]
    norm_num

theorem spec_C5_witness :
    coulombicCalculate
        [{ name := "O", symbol := "o", mass := 16,
           properties := [("charge", -0.8)], interaction_types := [] },
         { name := "H", symbol := "h", mass := 1,
           properties := [("charge", 0.4)], interaction_types := [] }] =
      .ok [("charge_product", (-0.8 : ℝ) * 0.4)] :=
  spec_C5.2.2.1 _ _ [] _ _ (by simp [lookup]) (by simp [lookup])

/-- Claim C7: a successfully constructed InteractionType's resolved
parameter keys are exactly the potential's `parameter_names` and its
resolved constant keys exactly the potential's `constant_names`;
supplied keys outside the declared sets do not appear. -/
theorem spec_C7 {name cat : String} {b : Bool} {pot : Potential} {d : String}
    {atoms : List AtomType} {ps cs : Option (List (String × ℝ))} {co : Option ℝ}
    {it : InteractionType}
    (h : mkInteractionType name cat b pot d atoms ps cs co = .ok it) :
    it.parameters.map Prod.fst = pot.parameter_names ∧
    it.constants.map Prod.fst = pot.constant_names ∧
    (∀ k, k ∉ pot.parameter_names → lookup it.parameters k = none) ∧
    (∀ k, k ∉ pot.constant_names → lookup it.constants k = none) := by
  obtain ⟨hp, hc⟩ := mkInteractionType_ok_elim h
  have hpk := resolveAll_ok_keys hp
  have hck := resolveAll_ok_keys hc
  exact ⟨hpk, hck,
    fun k hk => lookup_eq_none_of_not_mem (by rw [hpk]; exact hk),
    fun k hk => lookup_eq_none_of_not_mem (by rw [hck]; exact hk)⟩

/-- The InteractionType produced by constructing a harmonic bond with
explicit parameters `k = 2`, `eq = 1` and no cutoff. -/
def itHarmBuilt : InteractionType where
  name := "b"
  category_name := "bond"
  bonded := true
  potential := Harmonic
  decomposition := "bond"
  atom_types := []
  parameters := [("k", 2), ("eq", 1)]
  constants := []
  cutoff := none

theorem spec_C7_witness :
    itHarmBuilt.parameters.map Prod.fst = Harmonic.parameter_names ∧
    lookup itHarmBuilt.parameters "sigma" = none := by
  have h : mkInteractionType "b" "bond" true Harmonic "bond" []
      (some [("k", 2), ("eq", 1)]) none none = .ok itHarmBuilt := rfl
  exact ⟨(spec_C7 h).1, (spec_C7 h).2.2.1 "sigma" (by decide)⟩

theorem resolveParameter_error_elim {pot : Potential} {atoms : List AtomType}
    {explicit : List (String × ℝ)} {n : String} {e : FFError}
    (h : resolveParameter pot atoms explicit n = .error e) :
    lookup explicit n = none ∧
    ((pot.calculate_parameters = none ∧ e = .unsupportedDerivation pot.name) ∨
     (∃ f msg, pot.calculate_parameters = some f ∧ f atoms = .error msg ∧
        e = .derivationError pot.name msg) ∨
     (∃ f derived, pot.calculate_parameters = some f ∧ f atoms = .ok derived ∧
        lookup derived n = none ∧
        e = .derivationError pot.name ("KeyError: " ++ n))) := by
  cases hx : lookup explicit n with
  | some w =>
    have hres : resolveParameter pot atoms explicit n = .ok w := by
      simp [resolveParameter, hx]
    rw [hres] at h
    simp at h
  | none =>
    refine ⟨rfl, ?_⟩
    cases hcalc : pot.calculate_parameters with
    | none =>
      have hres : resolveParameter pot atoms explicit n =
          .error (.unsupportedDerivation pot.name) := by
        simp [resolveParameter, hx, hcalc]
      rw [hres] at h
      simp only [Except.error.injEq] at h
      exact Or.inl ⟨rfl, h.symm⟩
    | some f =>
      cases hat : f atoms with
      | error msg =>
        have hres : resolveParameter pot atoms explicit n =
            .error (.derivationError pot.name msg) := by
          simp [resolveParameter, hx, hcalc, hat]
        rw [hres] at h
        simp only [Except.error.injEq] at h
        exact Or.inr (Or.inl ⟨f, msg, rfl, hat, h.symm⟩)
      | ok derived =>
        cases hd : lookup derived n with
        | some w =>
          have hres : resolveParameter pot atoms explicit n = .ok w := by
            simp [resolveParameter, hx, hcalc, hat, hd]
          rw [hres] at h
          simp at h
        | none =>
          have hres : resolveParameter pot atoms explicit n =
              .error (.derivationError pot.name ("KeyError: " ++ n)) := by
            simp [resolveParameter, hx, hcalc, hat, hd]
          rw [hres] at h
          simp only [Except.error.injEq] at h
          exact Or.inr (Or.inr ⟨f, derived, rfl, hat, hd, h.symm⟩)

/-- Claim C2: for every name in `parameter_names`, an explicitly supplied
value is used as-is (explicit wins over derivation even when a rule
exists); otherwise the value `calculate_parameters(atom_types)` yields
for that name; if the potential does not support derivation, the
derivation raises, or the derived dict lacks the name, construction
fails with an error naming the potential. -/
theorem spec_C2 (name cat : String) (b : Bool) (pot : Potential) (d : String)
    (atoms : List AtomType) (explicit : List (String × ℝ))
    (cs : Option (List (String × ℝ))) (co : Option ℝ) :
    (∀ it, mkInteractionType name cat b pot d atoms (some explicit) cs co = .ok it →
      ∀ n ∈ pot.parameter_names,
        (∀ v, lookup explicit n = some v → lookup it.parameters n = some v) ∧
        (lookup explicit n = none →
          ∃ f derived, pot.calculate_parameters = some f ∧ f atoms = .ok derived ∧
            lookup it.parameters n = lookup derived n ∧ (lookup derived n).isSome)) ∧
    (∀ n ∈ pot.parameter_names, lookup explicit n = none →
      (pot.calculate_parameters = none →
        mkInteractionType name cat b pot d atoms (some explicit) cs co =
          .error (.unsupportedDerivation pot.name)) ∧
      (∀ f msg, pot.calculate_parameters = some f → f atoms = .error msg →
        mkInteractionType name cat b pot d atoms (some explicit) cs co =
          .error (.derivationError pot.name msg)) ∧
      (∀ f derived, pot.calculate_parameters = some f → f atoms = .ok derived →
        lookup derived n = none →
        ∃ m, mkInteractionType name cat b pot d atoms (some explicit) cs co =
          .error (.derivationError pot.name m))) := by
  constructor
  · intro it hmk n hn
    obtain ⟨hp, -⟩ := mkInteractionType_ok_elim hmk
    obtain ⟨v, hv0, hl⟩ := resolveAll_ok_lookup hp n hn
    have hv : resolveParameter pot atoms explicit n = .ok v := hv0
    constructor
    · intro w hw
      have hres : resolveParameter pot atoms explicit n = .ok w := by
        simp [resolveParameter, hw]
      rw [hres] at hv
      cases hv
      exact hl
    · intro hw
      cases hcalc : pot.calculate_parameters with
      | none =>
        have hres : resolveParameter pot atoms explicit n =
            .error (.unsupportedDerivation pot.name) := by
          simp [resolveParameter, hw, hcalc]
        rw [hres] at hv
        simp at hv
      | some f =>
        cases hat : f atoms with
        | error msg =>
          have hres : resolveParameter pot atoms explicit n =
              .error (.derivationError pot.name msg) := by
            simp [resolveParameter, hw, hcalc, hat]
          rw [hres] at hv
          simp at hv
        | ok derived =>
          cases hd : lookup derived n with
          | none =>
            have hres : resolveParameter pot atoms explicit n =
                .error (.derivationError pot.name ("KeyError: " ++ n)) := by
              simp [resolveParameter, hw, hcalc, hat, hd]
            rw [hres] at hv
            simp at hv
          | some w =>
            have hres : resolveParameter pot atoms explicit n = .ok w := by
              simp [resolveParameter, hw, hcalc, hat, hd]
            rw [hres] at hv
            simp only [Except.ok.injEq] at hv
            subst hv
            exact ⟨f, derived, rfl, hat, by rw [hl, hd], by rw [hd]; rfl⟩
  · intro n hn hx
    refine ⟨?_, ?_, ?_⟩
    · intro hcalc
      have herr : resolveParameter pot atoms explicit n =
          .error (.unsupportedDerivation pot.name) := by
        simp [resolveParameter, hx, hcalc]
      obtain ⟨e', he'⟩ := resolveAll_error_of_mem hn herr
      obtain ⟨n2, hn2, hf2⟩ := resolveAll_error_mem he'
      obtain ⟨-, hshape⟩ := resolveParameter_error_elim hf2
      have he'eq : e' = .unsupportedDerivation pot.name := by
        rcases hshape with ⟨-, he⟩ | ⟨f, msg, hcf, -, -⟩ | ⟨f, derived, hcf, -, -, -⟩
        · exact he
        · rw [hcalc] at hcf; cases hcf
        · rw [hcalc] at hcf; cases hcf
      subst he'eq
      exact mkInteractionType_error_params he'
    · intro f msg hcalc hat
      have herr : resolveParameter pot atoms explicit n =
          .error (.derivationError pot.name msg) := by
        simp [resolveParameter, hx, hcalc, hat]
      obtain ⟨e', he'⟩ := resolveAll_error_of_mem hn herr
      obtain ⟨n2, hn2, hf2⟩ := resolveAll_error_mem he'
      obtain ⟨-, hshape⟩ := resolveParameter_error_elim hf2
      have he'eq : e' = .derivationError pot.name msg := by
        rcases hshape with ⟨hcf, -⟩ | ⟨f2, msg2, hcf, hat2, he⟩ |
          ⟨f2, derived, hcf, hat2, -, -⟩
        · rw [hcalc] at hcf; cases hcf
        · rw [hcalc] at hcf
          cases hcf
          rw [hat] at hat2
          cases hat2
          exact he
        · rw [hcalc] at hcf
          cases hcf
          rw [hat] at hat2
          cases hat2
      subst he'eq
      exact mkInteractionType_error_params he'
    · intro f derived hcalc hat hd
      have herr : resolveParameter pot atoms explicit n =
          .error (.derivationError pot.name ("KeyError: " ++ n)) := by
        simp [resolveParameter, hx, hcalc, hat, hd]
      obtain ⟨e', he'⟩ := resolveAll_error_of_mem hn herr
      obtain ⟨n2, hn2, hf2⟩ := resolveAll_error_mem he'
      obtain ⟨-, hshape⟩ := resolveParameter_error_elim hf2
      have he'eq : ∃ m, e' = .derivationError pot.name m := by
        rcases hshape with ⟨hcf, -⟩ | ⟨f2, msg2, hcf, hat2, he⟩ |
          ⟨f2, derived2, hcf, hat2, -, he⟩
        · rw [hcalc] at hcf; cases hcf
        · rw [hcalc] at hcf
          cases hcf
          rw [hat] at hat2
          cases hat2
        · exact ⟨"KeyError: " ++ n2, he⟩
      obtain ⟨m, hm⟩ := he'eq
      subst hm
      exact ⟨m, mkInteractionType_error_params he'⟩

theorem spec_C2_witness :
    mkInteractionType "b" "bond" true Harmonic "bond" [] (some []) none none =
      .error (.unsupportedDerivation "harmonic") :=
  ((spec_C2 "b" "bond" true Harmonic "bond" [] [] none none).2 "k"
    (by decide) rfl).1 rfl

theorem resolveConstant_error_elim {explicit : List (String × ℝ)} {n : String}
    {e : FFError} (h : resolveConstant explicit n = .error e) :
    lookup explicit n = none ∧ Constants.get n = none ∧ e = .missingConstant n := by
  cases hx : lookup explicit n with
  | some w =>
    have hres : resolveConstant explicit n = .ok w := by simp [resolveConstant, hx]
    rw [hres] at h
    simp at h
  | none =>
    cases hg : Constants.get n with
    | some w =>
      have hres : resolveConstant explicit n = .ok w := by simp [resolveConstant, hx, hg]
      rw [hres] at h
      simp at h
    | none =>
      have hres : resolveConstant explicit n = .error (.missingConstant n) := by
        simp [resolveConstant, hx, hg]
      rw [hres] at h
      simp only [Except.error.injEq] at h
      exact ⟨rfl, rfl, h.symm⟩

/-- Claim C3: for every name in `constant_names`, an explicitly supplied
value is used; otherwise the value of the global physical-constants
table, which exposes `ecf = 138.935458` and `epsilon_r = 1.0` by name;
when neither source yields the name, construction fails with a
missing-constant error. -/
theorem spec_C3 (name cat : String) (b : Bool) (pot : Potential) (d : String)
    (atoms : List AtomType) (ps : Option (List (String × ℝ)))
    (explicit : List (String × ℝ)) (co : Option ℝ) :
    Constants.get "ecf" = some 138.935458 ∧
    Constants.get "epsilon_r" = some 1.0 ∧
    (∀ it, mkInteractionType name cat b pot d atoms ps (some explicit) co = .ok it →
      ∀ n ∈ pot.constant_names,
        (∀ v, lookup explicit n = some v → lookup it.constants n = some v) ∧
        (lookup explicit n = none →
          lookup it.constants n = Constants.get n ∧ (Constants.get n).isSome)) ∧
    (∀ n ∈ pot.constant_names, lookup explicit n = none → Constants.get n = none →
      ∀ l, resolveParameters pot atoms (ps.getD []) pot.parameter_names = .ok l →
        ∃ n', mkInteractionType name cat b pot d atoms ps (some explicit) co =
          .error (.missingConstant n')) := by
  refine ⟨rfl, rfl, ?_, ?_⟩
  · intro it hmk n hn
    obtain ⟨-, hcres⟩ := mkInteractionType_ok_elim hmk
    obtain ⟨v, hv0, hl⟩ := resolveAll_ok_lookup hcres n hn
    have hv : resolveConstant explicit n = .ok v := hv0
    constructor
    · intro w hw
      have hres : resolveConstant explicit n = .ok w := by simp [resolveConstant, hw]
      rw [hres] at hv
      cases hv
      exact hl
    · intro hw
      cases hg : Constants.get n with
      | none =>
        have hres : resolveConstant explicit n = .error (.missingConstant n) := by
          simp [resolveConstant, hw, hg]
        rw [hres] at hv
        simp at hv
      | some w =>
        have hres : resolveConstant explicit n = .ok w := by
          simp [resolveConstant, hw, hg]
        rw [hres] at hv
        simp only [Except.ok.injEq] at hv
        subst hv
        exact ⟨hl, rfl⟩
  · intro n hn hx hg l hpok
    have herr : resolveConstant explicit n = .error (.missingConstant n) := by
      simp [resolveConstant, hx, hg]
    obtain ⟨e', he'⟩ := resolveAll_error_of_mem hn herr
    obtain ⟨n2, hn2, hf2⟩ := resolveAll_error_mem he'
    obtain ⟨-, -, he'eq⟩ := resolveConstant_error_elim hf2
    subst he'eq
    exact ⟨n2, mkInteractionType_error_consts hpok he'⟩

/-- The InteractionType produced by constructing a Coulombic interaction
with an explicit `charge_product` and constants defaulted from the
physical-constants table. -/
noncomputable def itCoulBuilt : InteractionType where
  name := "c"
  category_name := "el"
  bonded := false
  potential := Coulombic
  decomposition := "pairwise"
  atom_types := []
  parameters := [("charge_product", -0.32)]
  constants := [("ecf", 138.935458), ("epsilon_r", 1.0)]
  cutoff := some 1.0

theorem spec_C3_witness :
    lookup itCoulBuilt.constants "ecf" = Constants.get "ecf" ∧
    lookup itCoulBuilt.constants "epsilon_r" = Constants.get "epsilon_r" := by
  have h : mkInteractionType "c" "el" false Coulombic "pairwise" []
      (some [("charge_product", -0.32)]) (some []) (some 1.0) = .ok itCoulBuilt := rfl
  refine ⟨?_, ?_⟩
  · exact (((spec_C3 "c" "el" false Coulombic "pairwise" []
      (some [("charge_product", -0.32)]) [] (some 1.0)).2.2.1 itCoulBuilt h
      "ecf" (by decide)).2 rfl).1
  · exact (((spec_C3 "c" "el" false Coulombic "pairwise" []
      (some [("charge_product", -0.32)]) [] (some 1.0)).2.2.1 itCoulBuilt h
      "epsilon_r" (by decide)).2 rfl).1

/-- Claim C8: a failed `define_*` call returns the ForceField unchanged —
in the source every registry mutation happens only after the last
possible failure point of the call. -/
theorem spec_C8 (ff : ForceField) (c : Call) (ff' : ForceField) (e : FFError)
    (h : applyCall ff c = (ff', some e)) : ff' = ff := by
  cases c with
  | defAtom n s m p =>
    simp only [applyCall, define_atom_type] at h
    split_ifs at h <;> simp only [Prod.mk.injEq] at h
    · exact h.1.symm
    · exact h.1.symm
    · exact h.1.symm
    · exact Option.noConfusion h.2
  | defInter n cat b pot d sp ps cs co =>
    simp only [applyCall, define_interaction_type] at h
    split at h
    · simp only [Prod.mk.injEq] at h
      exact h.1.symm
    · split at h
      · simp only [Prod.mk.injEq] at h
        exact h.1.symm
      · split at h
        · simp only [Prod.mk.injEq] at h
          exact h.1.symm
        · simp only [Prod.mk.injEq] at h
          exact Option.noConfusion h.2

theorem spec_C8_witness :
    (define_atom_type (ForceField.init none) "X" "X" 1 []).1 = ForceField.init none :=
  spec_C8 (ForceField.init none) (.defAtom "X" "X" 1 [])
    (define_atom_type (ForceField.init none) "X" "X" 1 []).1
    (.nameEqualsSymbol "X") rfl

theorem addBackRefs_length (nm : String) (idxs : List Nat) :
    ∀ (l : List AtomType) (k : Nat), (addBackRefs nm idxs l k).length = l.length := by
  intro l
  induction l with
  | nil => intro k; rfl
  | cons a rest ih =>
    intro k
    simp only [addBackRefs, List.length_cons, ih]

theorem addBackRefs_getD (nm : String) (idxs : List Nat) :
    ∀ (l : List AtomType) (k i : Nat), i < l.length →
      (addBackRefs nm idxs l k).getD i defaultAtom =
        (if (k + i) ∈ idxs
         then { l.getD i defaultAtom with
                interaction_types := (l.getD i defaultAtom).interaction_types ++ [nm] }
         else l.getD i defaultAtom) := by
  intro l
  induction l with
  | nil => intro k i hi; cases hi
  | cons a rest ih =>
    intro k i hi
    cases i with
    | zero => simp [addBackRefs]
    | succ j =>
      have hj : j < rest.length := Nat.lt_of_succ_lt_succ hi
      have hrw : k + (j + 1) = (k + 1) + j := by omega
      simp only [addBackRefs, List.getD_cons_succ, hrw]
      exact ih (k + 1) j hj

/-- Claim C10: a successful `define_interaction_type` appends the new
interaction exactly once to the back-reference list of each distinct
participating AtomType (an atom occurring several times among the
resolved atom types gets exactly one back-reference) and leaves every
non-participating AtomType unchanged. -/
theorem spec_C10 (ff : ForceField) (name cat : String) (b : Bool) (pot : Potential)
    (d : String) (specs : List AtomSpec) (ps cs : Option (List (String × ℝ)))
    (co : Option ℝ) (ff' : ForceField) (idxs : List Nat)
    (hres : resolveAtomSpecs ff specs = .ok idxs)
    (h : define_interaction_type ff name cat b pot d specs ps cs co = (ff', none)) :
    ff'.atom_types.length = ff.atom_types.length ∧
    (∀ i, i < ff.atom_types.length →
      (i ∈ idxs →
        (ff'.atom_types.getD i defaultAtom).interaction_types =
          (ff.atom_types.getD i defaultAtom).interaction_types ++ [name]) ∧
      (i ∉ idxs →
        ff'.atom_types.getD i defaultAtom = ff.atom_types.getD i defaultAtom)) := by
  simp only [define_interaction_type] at h
  split at h
  · simp only [Prod.mk.injEq] at h
    exact Option.noConfusion h.2
  · split at h
    · simp only [Prod.mk.injEq] at h
      exact Option.noConfusion h.2
    · rename_i idxs2 heq
      rw [hres] at heq
      cases heq
      split at h
      · simp only [Prod.mk.injEq] at h
        exact Option.noConfusion h.2
      · rename_i it hmk
        simp only [Prod.mk.injEq] at h
        obtain ⟨hff, -⟩ := h
        subst hff
        refine ⟨addBackRefs_length name idxs ff.atom_types 0, ?_⟩
        intro i hi
        have hg := addBackRefs_getD name idxs ff.atom_types 0 i hi
        rw [Nat.zero_add] at hg
        constructor
        · intro hmem
          show ((addBackRefs name idxs ff.atom_types 0).getD i
            defaultAtom).interaction_types = _
          rw [hg, if_pos hmem]
        · intro hmem
          show (addBackRefs name idxs ff.atom_types 0).getD i defaultAtom = _
          rw [hg, if_neg hmem]

/-- A two-atom force field (an oxygen and a hydrogen) built through the
public construction API, used as a concrete witness input. -/
def ffOH : ForceField :=
  (define_atom_type
    ((define_atom_type (ForceField.init (some "w")) "Oxygen" "O" 16
      [("charge", -0.8)]).1)
    "Hydrogen" "H" 1 [("charge", 0.4)]).1

theorem spec_C10_witness :
    ((define_interaction_type ffOH "OO" "bond" true Harmonic "bond"
        [AtomSpec.ident "O", AtomSpec.ident "O"]
        (some [("k", 1), ("eq", 1)]) none none).1.atom_types.getD 0
          defaultAtom).interaction_types =
      (ffOH.atom_types.getD 0 defaultAtom).interaction_types ++ ["OO"] ∧
    (define_interaction_type ffOH "OO" "bond" true Harmonic "bond"
        [AtomSpec.ident "O", AtomSpec.ident "O"]
        (some [("k", 1), ("eq", 1)]) none none).1.atom_types.getD 1 defaultAtom =
      ffOH.atom_types.getD 1 defaultAtom := by
  have hres : resolveAtomSpecs ffOH [AtomSpec.ident "O", AtomSpec.ident "O"] =
      .ok [0, 0] := rfl
  have h : define_interaction_type ffOH "OO" "bond" true Harmonic "bond"
      [AtomSpec.ident "O", AtomSpec.ident "O"] (some [("k", 1), ("eq", 1)]) none none =
      ((define_interaction_type ffOH "OO" "bond" true Harmonic "bond"
        [AtomSpec.ident "O", AtomSpec.ident "O"]
        (some [("k", 1), ("eq", 1)]) none none).1, none) := rfl
  have hc := spec_C10 ffOH "OO" "bond" true Harmonic "bond"
    [AtomSpec.ident "O", AtomSpec.ident "O"] (some [("k", 1), ("eq", 1)]) none none
    _ [0, 0] hres h
  have hlen : ffOH.atom_types.length = 2 := rfl
  exact ⟨(hc.2 0 (by rw [hlen]; omega)).1 (by decide),
    (hc.2 1 (by rw [hlen]; omega)).2 (by decide)⟩

/-- The flattened list of all atom-type names and symbols of a
ForceField, in registration order. -/
def atomIdentList (ff : ForceField) : List String :=
  ff.atom_types.flatMap (fun a => [a.name, a.symbol])

/-- The registry invariant maintained by the `define_*` operations: the
name/symbol pool of the atom types has no duplicates, the interaction
names have no duplicates, and the two identifier sets track exactly
those pools. -/
def FFInv (ff : ForceField) : Prop :=
  (atomIdentList ff).Nodup ∧
  (∀ s, s ∈ ff.atom_type_identifiers ↔ s ∈ atomIdentList ff) ∧
  (ff.interaction_types.map InteractionType.name).Nodup ∧
  (∀ s, s ∈ ff.interaction_type_identifiers ↔
    s ∈ ff.interaction_types.map InteractionType.name)

theorem FFInv_init (n : Option String) : FFInv (ForceField.init n) := by
  refine ⟨List.nodup_nil, ?_, List.nodup_nil, ?_⟩ <;>
    simp [ForceField.init, atomIdentList]

theorem addBackRefs_identList (nm : String) (idxs : List Nat) :
    ∀ (l : List AtomType) (k : Nat),
      (addBackRefs nm idxs l k).flatMap (fun a => [a.name, a.symbol]) =
        l.flatMap (fun a => [a.name, a.symbol]) := by
  intro l
  induction l with
  | nil => intro k; rfl
  | cons a rest ih =>
    intro k
    simp only [addBackRefs, List.flatMap_cons, ih]
    split <;> rfl

theorem mkInteractionType_ok_name {name cat : String} {b : Bool} {pot : Potential}
    {d : String} {atoms : List AtomType} {ps cs : Option (List (String × ℝ))}
    {co : Option ℝ} {it : InteractionType}
    (h : mkInteractionType name cat b pot d atoms ps cs co = .ok it) :
    it.name = name := by
  simp only [mkInteractionType] at h
  split at h
  · exact Except.noConfusion h
  · split at h
    · exact Except.noConfusion h
    · simp only [Except.ok.injEq] at h
      subst h
      rfl

theorem FFInv_defineAtom {ff : ForceField} {n s : String} {m : ℝ}
    {p : List (String × ℝ)} {ff' : ForceField} (hinv : FFInv ff)
    (h : define_atom_type ff n s m p = (ff', none)) : FFInv ff' := by
  obtain ⟨hnd, hiff, hndI, hiffI⟩ := hinv
  simp only [define_atom_type] at h
  split_ifs at h with h1 h2 h3
  · exact Option.noConfusion (congrArg Prod.snd h)
  · exact Option.noConfusion (congrArg Prod.snd h)
  · exact Option.noConfusion (congrArg Prod.snd h)
  · simp only [Prod.mk.injEq] at h
    obtain ⟨hff, -⟩ := h
    subst hff
    have hlist : atomIdentList { ff with
        atom_types := ff.atom_types ++
          [{ name := n, symbol := s, mass := m, properties := p,
             interaction_types := [] }],
        atom_type_identifiers := ff.atom_type_identifiers ++ [n, s] } =
        atomIdentList ff ++ [n, s] := by
      simp [atomIdentList]
    refine ⟨?_, ?_, hndI, hiffI⟩
    · rw [hlist, List.nodup_append]
      refine ⟨hnd, by simp [h1], ?_⟩
      intro x hx
      simp only [List.mem_cons, List.not_mem_nil, or_false, List.mem_singleton]
      rintro (rfl | rfl)
      · exact h2 ((hiff x).mpr hx)
      · exact h3 ((hiff x).mpr hx)
    · intro t
      rw [hlist]
      simp only [List.mem_append]
      constructor
      · rintro (ht | ht)
        · exact Or.inl ((hiff t).mp ht)
        · exact Or.inr ht
      · rintro (ht | ht)
        · exact Or.inl ((hiff t).mpr ht)
        · exact Or.inr ht

theorem FFInv_defineInter {ff : ForceField} {n cat : String} {b : Bool}
    {pot : Potential} {d : String} {sp : List AtomSpec}
    {ps cs : Option (List (String × ℝ))} {co : Option ℝ} {ff' : ForceField}
    (hinv : FFInv ff)
    (h : define_interaction_type ff n cat b pot d sp ps cs co = (ff', none)) :
    FFInv ff' := by
  obtain ⟨hnd, hiff, hndI, hiffI⟩ := hinv
  simp only [define_interaction_type] at h
  split at h
  · exact Option.noConfusion (congrArg Prod.snd h)
  · rename_i hname
    split at h
    · exact Option.noConfusion (congrArg Prod.snd h)
    · rename_i idxs heq
      split at h
      · exact Option.noConfusion (congrArg Prod.snd h)
      · rename_i it hmk
        simp only [Prod.mk.injEq] at h
        obtain ⟨hff, -⟩ := h
        subst hff
        have hitn : it.name = n := mkInteractionType_ok_name hmk
        have hlist : atomIdentList { ff with
            atom_types := addBackRefs n idxs ff.atom_types 0,
            interaction_types := ff.interaction_types ++ [it],
            interaction_type_identifiers := ff.interaction_type_identifiers ++ [n] } =
            atomIdentList ff := by
          simp only [atomIdentList]
          exact addBackRefs_identList n idxs ff.atom_types 0
        refine ⟨by rw [hlist]; exact hnd, ?_, ?_, ?_⟩
        · intro t
          rw [hlist]
          exact hiff t
        · show ((ff.interaction_types ++ [it]).map InteractionType.name).Nodup
          rw [List.map_append, List.nodup_append]
          refine ⟨hndI, by simp, ?_⟩
          intro x hx
          simp only [List.map_cons, List.map_nil, List.mem_cons, List.not_mem_nil,
            or_false, List.mem_singleton]
          rintro rfl
          rw [hitn] at hx
          exact hname ((hiffI _).mpr hx)
        · intro t
          show t ∈ ff.interaction_type_identifiers ++ [n] ↔
            t ∈ (ff.interaction_types ++ [it]).map InteractionType.name
          rw [List.map_append, List.mem_append, List.mem_append]
          simp only [List.map_cons, List.map_nil, hitn]
          exact or_congr (hiffI t) Iff.rfl

theorem FFInv_applyCall {ff : ForceField} {c : Call} {ff' : ForceField}
    (hinv : FFInv ff) (h : applyCall ff c = (ff', none)) : FFInv ff' := by
  cases c with
  | defAtom n s m p => exact FFInv_defineAtom hinv h
  | defInter n cat b pot d sp ps cs co => exact FFInv_defineInter hinv h

theorem FFInv_runCalls {calls : List Call} :
    ∀ {ff ff' : ForceField}, runCalls ff calls = .ok ff' → FFInv ff → FFInv ff' := by
  induction calls with
  | nil =>
    intro ff ff' h hinv
    simp only [runCalls, Except.ok.injEq] at h
    subst h
    exact hinv
  | cons c rest ih =>
    intro ff ff' h hinv
    simp only [runCalls] at h
    split at h
    · exact Except.noConfusion h
    · rename_i ff1 happ
      exact ih h (FFInv_applyCall hinv happ)

/-- Claim C6: `define_atom_type` fails when the new name equals the new
symbol or either collides with an existing atom-type name or symbol, and
`define_interaction_type` fails when the new name collides with an
existing interaction-type name; consequently after every sequence of
successful `define_*` calls no two AtomTypes share a name or symbol, no
AtomType's name equals its own symbol, and no two InteractionTypes share
a name. -/
theorem spec_C6 (nm : Option String) (calls : List Call) (ff : ForceField)
    (h : runCalls (ForceField.init nm) calls = .ok ff) :
    (∀ a ∈ ff.atom_types, a.name ≠ a.symbol) ∧
    ff.atom_types.Pairwise (fun a b =>
      a.name ≠ b.name ∧ a.symbol ≠ b.symbol ∧ a.name ≠ b.symbol ∧
        a.symbol ≠ b.name) ∧
    ff.interaction_types.Pairwise (fun i j => i.name ≠ j.name) ∧
    (∀ (n s : String) (m : ℝ) (p : List (String × ℝ)),
      (n = s ∨ (∃ a ∈ ff.atom_types, a.name = n ∨ a.symbol = n) ∨
        (∃ a ∈ ff.atom_types, a.name = s ∨ a.symbol = s)) →
      (define_atom_type ff n s m p).2.isSome = true) ∧
    (∀ (n cat : String) (b : Bool) (pot : Potential) (d : String)
        (sp : List AtomSpec) (ps cs : Option (List (String × ℝ))) (co : Option ℝ),
      (∃ it ∈ ff.interaction_types, it.name = n) →
      (define_interaction_type ff n cat b pot d sp ps cs co).2.isSome = true) := by
  obtain ⟨hnd, hiff, hndI, hiffI⟩ := FFInv_runCalls h (FFInv_init nm)
  have hmem : ∀ t, (∃ a ∈ ff.atom_types, a.name = t ∨ a.symbol = t) →
      t ∈ ff.atom_type_identifiers := by
    rintro t ⟨a, ha, hor⟩
    refine (hiff t).mpr (List.mem_flatMap.mpr ⟨a, ha, ?_⟩)
    rcases hor with rfl | rfl <;> simp
  obtain ⟨hone, hpair⟩ := List.nodup_flatMap.mp hnd
  refine ⟨?_, ?_, ?_, ?_, ?_⟩
  · intro a ha
    simpa using hone a ha
  · refine hpair.imp ?_
    intro a b hdisj
    refine ⟨?_, ?_, ?_, ?_⟩
    · intro hEq
      exact hdisj (show a.name ∈ [a.name, a.symbol] by simp)
        (by rw [hEq]; simp)
    · intro hEq
      exact hdisj (show a.symbol ∈ [a.name, a.symbol] by simp)
        (by rw [hEq]; simp)
    · intro hEq
      exact hdisj (show a.name ∈ [a.name, a.symbol] by simp)
        (by rw [hEq]; simp)
    · intro hEq
      exact hdisj (show a.symbol ∈ [a.name, a.symbol] by simp)
        (by rw [hEq]; simp)
  · rw [List.Nodup, List.pairwise_map] at hndI
    exact hndI
  · intro n s m p hcol
    simp only [define_atom_type]
    split_ifs with h1 h2 h3
    · rfl
    · rfl
    · rfl
    · exfalso
      rcases hcol with rfl | hcN | hcS
      · exact h1 rfl
      · exact h2 (hmem n hcN)
      · exact h3 (hmem s hcS)
  · rintro n cat b pot d sp ps cs co ⟨it, hit, hn⟩
    have hin : n ∈ ff.interaction_type_identifiers :=
      (hiffI n).mpr (List.mem_map.mpr ⟨it, hit, hn⟩)
    simp [define_interaction_type, hin]

theorem spec_C6_witness :
    (define_atom_type ffOH "Q" "Q" 1 []).2.isSome = true ∧
    ffOH.atom_types.Pairwise (fun a b =>
      a.name ≠ b.name ∧ a.symbol ≠ b.symbol ∧ a.name ≠ b.symbol ∧
        a.symbol ≠ b.name) := by
  have h : runCalls (ForceField.init (some "w"))
      [.defAtom "Oxygen" "O" 16 [("charge", -0.8)],
       .defAtom "Hydrogen" "H" 1 [("charge", 0.4)]] = .ok ffOH := rfl
  have hc := spec_C6 (some "w") _ ffOH h
  exact ⟨hc.2.2.2.1 "Q" "Q" 1 [] (Or.inl rfl), hc.2.1⟩

/-- Claim C9 as stated is false on the code: for a Coulombic interaction
with `charge_product = 0` (default constants) — e.g. any pair involving
a neutral atom — `U` is identically `0`, so `|U|` does not strictly
decrease. Refuted at `q = 0`, `ecf = 138.935458`, `epsilon_r = 1`,
`x1 = 1`, `x2 = 2`. -/
theorem spec_C9_counterexample :
    ¬ (∀ (q E er : ℝ),
      (∀ x u, 0 < x →
        Coulombic.U x [("charge_product", q)] [("ecf", E), ("epsilon_r", er)] =
          some u → Real.sign u = Real.sign q) ∧
      (∀ x1 x2 u1 u2, 0 < x1 → x1 < x2 →
        Coulombic.U x1 [("charge_product", q)] [("ecf", E), ("epsilon_r", er)] =
          some u1 →
        Coulombic.U x2 [("charge_product", q)] [("ecf", E), ("epsilon_r", er)] =
          some u2 → |u2| < |u1|)) := by
  intro h
  have h2 := (h 0 138.935458 1).2 1 2 0 0 one_pos one_lt_two
    (by simp [Coulombic, lookup]) (by simp [Coulombic, lookup])
  simp at h2

/-- Claim C9 (amended): for every Coulombic interaction whose resolved
`ecf` and `epsilon_r` are positive (the defaults are), the sign of
`U(x)` equals the sign of `charge_product` for every `x > 0`; and when
`charge_product ≠ 0`, `|U|` strictly decreases as `x` increases over
`x > 0`. (With `charge_product = 0` the energy is identically zero, so
strict decrease fails; with a negative explicit `ecf` or `epsilon_r`
the sign property fails.) -/
theorem spec_C9_amended (q E er : ℝ) (hE : 0 < E) (her : 0 < er) :
    (∀ x u, 0 < x →
      Coulombic.U x [("charge_product", q)] [("ecf", E), ("epsilon_r", er)] =
        some u → Real.sign u = Real.sign q) ∧
    (q ≠ 0 → ∀ x1 x2 u1 u2, 0 < x1 → x1 < x2 →
      Coulombic.U x1 [("charge_product", q)] [("ecf", E), ("epsilon_r", er)] =
        some u1 →
      Coulombic.U x2 [("charge_product", q)] [("ecf", E), ("epsilon_r", er)] =
        some u2 → |u2| < |u1|) := by
  have hU : ∀ x : ℝ, Coulombic.U x [("charge_product", q)]
      [("ecf", E), ("epsilon_r", er)] = some (E * q / (er * x)) := by
    intro x
    simp [Coulombic, lookup]
  constructor
  · intro x u hx hu
    rw [hU x] at hu
    obtain rfl : E * q / (er * x) = u := Option.some.inj hu
    rcases lt_trichotomy q 0 with hq | rfl | hq
    · have hval : E * q / (er * x) < 0 :=
        div_neg_of_neg_of_pos (mul_neg_of_pos_of_neg hE hq) (mul_pos her hx)
      rw [Real.sign_of_neg hval, Real.sign_of_neg hq]
    · rw [mul_zero, zero_div]
    · have hval : 0 < E * q / (er * x) := div_pos (mul_pos hE hq) (mul_pos her hx)
      rw [Real.sign_of_pos hval, Real.sign_of_pos hq]
  · intro hq x1 x2 u1 u2 hx1 hx12 hu1 hu2
    rw [hU x1] at hu1
    rw [hU x2] at hu2
    obtain rfl : E * q / (er * x1) = u1 := Option.some.inj hu1
    obtain rfl : E * q / (er * x2) = u2 := Option.some.inj hu2
    have habs : ∀ x : ℝ, 0 < x → |E * q / (er * x)| = E * |q| / (er * x) := by
      intro x hx
      rw [abs_div, abs_mul, abs_mul, abs_of_pos hE, abs_of_pos her, abs_of_pos hx]
    rw [habs x1 hx1, habs x2 (lt_trans hx1 hx12)]
    exact div_lt_div_of_pos_left (mul_pos hE (abs_pos.mpr hq)) (mul_pos her hx1)
      ((mul_lt_mul_left her).mpr hx12)

theorem spec_C9_witness :
    Real.sign (138.935458 * (-0.32) / (1 * 0.3)) = Real.sign (-0.32 : ℝ) ∧
    |(138.935458 : ℝ) * (-0.32) / (1 * 2)| < |(138.935458 : ℝ) * (-0.32) / (1 * 1)| := by
  have hc := spec_C9_amended (-0.32) 138.935458 1 (by norm_num) one_pos
  exact ⟨hc.1 0.3 (138.935458 * (-0.32) / (1 * 0.3)) (by norm_num)
      (by simp [Coulombic, lookup]),
    hc.2 (by norm_num) 1 2 (138.935458 * (-0.32) / (1 * 1))
      (138.935458 * (-0.32) / (1 * 2)) one_pos one_lt_two
      (by simp [Coulombic, lookup]) (by simp [Coulombic, lookup])⟩
